import Mathlib

/-!
Blackjack advice engine (`main.go`)

A shallow embedding of the decision core of the blackjack advice server:
`cardValue`, `calculateTotal`, `canSplit`, `createFact` and `executeRules`,
followed by theorems about them.

Modelling conventions.

* Go `int` is modelled by `Int`.  `executeRules` only compares integers; the
  single addition in `calculateTotal` sums card values of at most 11, so it
  cannot leave the 64-bit range for any hand that fits in memory.
* Go `string` is modelled by `String`; the card symbols that matter are ASCII.
* The `(int, error)` result of `cardValue` is modelled by `Except String Int`;
  the result of `createFact`, which also indexes `req.Dealer`, by `GoResult`.
* `executeRules` mutates the fact through a pointer; here it maps the fact
  before the call to the fact after the call.
-/

namespace Blackjack

/-! ## Library functions used by `cardValue` -/

/-- Model of Go `strings.ToUpper`, restricted to what the `switch` in
`cardValue` can observe: ASCII letters are upper-cased, every other character
is left alone.  Go also upper-cases non-ASCII letters, but no non-ASCII
character has `A`, `J`, `Q` or `K` as its upper case, so the comparison with
those four one-letter strings is unaffected. -/
def stringsToUpper (s : String) : String :=
  String.mk (s.data.map Char.toUpper)

/-- The digit loop of `strconv.Atoi`: `n = n*10 + (ch - 48)`, failing on the
first character that is not a decimal digit. -/
def atoiDigits : List Char → Nat → Option Nat
  | [], n => some n
  | ch :: rest, n =>
    if 48 ≤ ch.toNat ∧ ch.toNat ≤ 57 then atoiDigits rest (n * 10 + (ch.toNat - 48))
    else none

/-- Model of Go `strconv.Atoi` on a 64-bit platform: an optional sign `+` or
`-`, then at least one decimal digit and nothing else; `none` stands for a
non-nil error (syntax error, or a value outside the `int` range). -/
def strconvAtoi (s : String) : Option Int :=
  match s.data with
  | [] => none
  | c :: cs =>
    let body := if c = '-' ∨ c = '+' then cs else c :: cs
    match body with
    | [] => none
    | b :: bs =>
      match atoiDigits (b :: bs) 0 with
      | none => none
      | some n =>
        let v : Int := if c = '-' then -(n : Int) else (n : Int)
        if -(2 : Int) ^ 63 ≤ v ∧ v < (2 : Int) ^ 63 then some v else none

deriving instance DecidableEq for Except

/-! ## Data model (`main.go` lines 18–42) -/

/-- The anonymous struct `Request.GameRules`. -/
structure GameRules where
  DASAllowed : Bool
  SurrenderAllowed : Bool
  Decks : Int
  deriving DecidableEq, Repr

/-- The struct `Request`. -/
structure Request where
  Player : List String
  Dealer : List String
  GameRules : GameRules
  deriving DecidableEq, Repr

/-- The struct `BlackjackFact`. -/
structure BlackjackFact where
  PlayerTotal : Int
  SoftTotal : Bool
  DealerCard : Int
  CanSplit : Bool
  DASAllowed : Bool
  SurrenderAllowed : Bool
  Decks : Int
  RecommendedAct : String
  Insurance : Bool
  deriving DecidableEq, Repr

/-- Outcome of a Go call returning `(*T, error)` that may also index a slice:
`ok` is `(value, nil)`, `error` is `(nil, err)`, and `outOfRange` is the
run-time panic of an index expression on a slice that is too short. -/
inductive GoResult (α : Type) where
  | ok (a : α)
  | error (msg : String)
  | outOfRange
  deriving DecidableEq, Repr

/-! ## Hand evaluation (`main.go` lines 556–599) -/

/-- The function `cardValue` (lines 578–590). -/
def cardValue (card : String) : Except String Int :=
  if stringsToUpper card = "A" then .ok 11
  else if stringsToUpper card = "J" ∨ stringsToUpper card = "Q" ∨ stringsToUpper card = "K" then
    .ok 10
  else
    match strconvAtoi card with
    | some val =>
      if val ≥ 2 ∧ val ≤ 10 then .ok val
      else .error ("invalid card value: " ++ card)
    | none => .error ("invalid card value: " ++ card)

/-- The idiom `val, _ := cardValue(card)`: the error is dropped, and the
integer that `cardValue` returns next to an error is `0` (line 588). -/
def cardValueIgnoreErr (card : String) : Int :=
  match cardValue card with
  | .ok v => v
  | .error _ => 0

/-- The first loop of `calculateTotal` (lines 560–566), from the running
`(total, aces)`; `aces` only counts upwards from 0, hence a natural number. -/
def sumCards : List String → Int → Nat → Int × Nat
  | [], total, aces => (total, aces)
  | card :: rest, total, aces =>
    let val := cardValueIgnoreErr card
    sumCards rest (total + val) (if val = 11 then aces + 1 else aces)

/-- The second loop of `calculateTotal` (lines 569–573):
`for total > 21 && aces > 0 { total -= 10; aces--; soft = aces > 0 }`. -/
def reduceAces : Int → Nat → Bool → Int × Bool
  | total, 0, soft => (total, soft)
  | total, aces + 1, soft =>
    if total > 21 then reduceAces (total - 10) aces (decide (aces > 0))
    else (total, soft)

/-- The function `calculateTotal` (lines 556–576). -/
def calculateTotal (cards : List String) : Int × Bool :=
  let (total, aces) := sumCards cards 0 0
  reduceAces total aces false

/-- The function `canSplit` (lines 592–599). -/
def canSplit (cards : List String) : Bool :=
  match cards with
  | [c0, c1] => decide (cardValueIgnoreErr c0 = cardValueIgnoreErr c1)
  | _ => false

/-- The function `createFact` (lines 538–554).  `req.Dealer[0]` panics on an
empty dealer slice; `RecommendedAct` and `Insurance` get their zero values. -/
def createFact (req : Request) : GoResult BlackjackFact :=
  let (playerTotal, soft) := calculateTotal req.Player
  match req.Dealer with
  | [] => .outOfRange
  | d0 :: _ =>
    match cardValue d0 with
    | .error err => .error err
    | .ok dealerCard =>
      .ok { PlayerTotal := playerTotal
            SoftTotal := soft
            DealerCard := dealerCard
            CanSplit := canSplit req.Player
            DASAllowed := req.GameRules.DASAllowed
            SurrenderAllowed := req.GameRules.SurrenderAllowed
            Decks := req.GameRules.Decks
            RecommendedAct := ""
            Insurance := false }

/-! ## The resolver (`main.go` lines 438–536) -/

/-- Lines 448–473 of `executeRules`: the pair block.  `some` is the fact at an
early `return`, `none` means control falls through to line 475. -/
def pairRules (fact : BlackjackFact) : Option BlackjackFact :=
  if fact.CanSplit then
    if fact.PlayerTotal = 12 ∧ fact.DealerCard ≥ 2 ∧ fact.DealerCard ≤ 6 then
      some { fact with RecommendedAct := "SPLIT" }
    else if fact.PlayerTotal = 14 ∧ fact.DealerCard ≥ 2 ∧ fact.DealerCard ≤ 7 then
      some { fact with RecommendedAct := "SPLIT" }
    else if fact.PlayerTotal = 16 then
      some { fact with RecommendedAct := "SPLIT" }
    else if fact.PlayerTotal = 18 ∧ fact.DealerCard ≤ 9 then
      some { fact with RecommendedAct := "SPLIT" }
    else if fact.PlayerTotal = 20 then
      some { fact with RecommendedAct := "STAND" }
    else if fact.PlayerTotal = 22 ∨ (fact.PlayerTotal = 12 ∧ fact.SoftTotal = true) then
      some { fact with RecommendedAct := "SPLIT" }
    else none
  else none

/-- Lines 475–486 of `executeRules`: the surrender block, with the same
convention as `pairRules`. -/
def surrenderRules (fact : BlackjackFact) : Option BlackjackFact :=
  if fact.SurrenderAllowed then
    if fact.SoftTotal = false then
      if fact.PlayerTotal = 16 ∧ fact.DealerCard ≥ 9 then
        some { fact with RecommendedAct := "SURRENDER" }
      else if fact.PlayerTotal = 15 ∧ fact.DealerCard = 10 then
        some { fact with RecommendedAct := "SURRENDER" }
      else none
    else none
  else none

/-- Lines 489–503 of `executeRules`: the body of `if fact.SoftTotal`, before
its `return`. -/
def softRules (fact : BlackjackFact) : BlackjackFact :=
  if fact.PlayerTotal ≥ 19 then { fact with RecommendedAct := "STAND" }
  else if fact.PlayerTotal = 18 then
    if fact.DealerCard ≥ 9 then { fact with RecommendedAct := "HIT" }
    else if fact.DealerCard ≥ 3 ∧ fact.DealerCard ≤ 6 then { fact with RecommendedAct := "DOUBLE" }
    else { fact with RecommendedAct := "STAND" }
  else if fact.PlayerTotal = 17 ∧ fact.DealerCard ≥ 3 ∧ fact.DealerCard ≤ 6 then
    { fact with RecommendedAct := "DOUBLE" }
  else { fact with RecommendedAct := "HIT" }

/-- Lines 507–531 of `executeRules`: the hard-total `if`/`else if` chain.  It
has no final `else`, so the last alternative leaves the fact unchanged. -/
def hardRules (fact : BlackjackFact) : BlackjackFact :=
  if fact.PlayerTotal ≥ 17 then { fact with RecommendedAct := "STAND" }
  else if fact.PlayerTotal ≤ 8 then { fact with RecommendedAct := "HIT" }
  else if fact.PlayerTotal = 11 then { fact with RecommendedAct := "DOUBLE" }
  else if fact.PlayerTotal = 10 then
    if fact.DealerCard ≤ 9 then { fact with RecommendedAct := "DOUBLE" }
    else { fact with RecommendedAct := "HIT" }
  else if fact.PlayerTotal = 9 then
    if fact.DealerCard ≥ 3 ∧ fact.DealerCard ≤ 6 then { fact with RecommendedAct := "DOUBLE" }
    else { fact with RecommendedAct := "HIT" }
  else if fact.PlayerTotal ≥ 12 ∧ fact.PlayerTotal ≤ 16 then
    if fact.DealerCard ≥ 7 then { fact with RecommendedAct := "HIT" }
    else { fact with RecommendedAct := "STAND" }
  else fact

/-- Lines 533–535 of `executeRules`: the closing default. -/
def defaultRule (fact : BlackjackFact) : BlackjackFact :=
  if fact.RecommendedAct = "" then { fact with RecommendedAct := "HIT" } else fact

/-- Lines 444–446 of `executeRules`: the insurance flag. -/
def insuranceRule (fact : BlackjackFact) : BlackjackFact :=
  if fact.DealerCard = 11 then { fact with Insurance := true } else fact

/-- Lines 448–535 of `executeRules`: what follows the insurance flag. -/
def decisionRules (fact : BlackjackFact) : BlackjackFact :=
  match pairRules fact with
  | some done => done
  | none =>
    match surrenderRules fact with
    | some done => done
    | none =>
      if fact.SoftTotal then softRules fact
      else defaultRule (hardRules fact)

/-- The function `executeRules` (lines 438–536): the fact after the call, as a
function of the fact before it. -/
def executeRules (fact : BlackjackFact) : BlackjackFact :=
  if fact.PlayerTotal = 21 then { fact with RecommendedAct := "BLACKJACK" }
  else decisionRules (insuranceRule fact)

/-- Lines 426–435 of `adviceHandler`: `createFact` followed by `executeRules`;
the value is the `Action` field of the response. -/
def advice (req : Request) : GoResult String :=
  match createFact req with
  | .ok fact => .ok (executeRules fact).RecommendedAct
  | .error err => .error err
  | .outOfRange => .outOfRange

/-! ## Definitions used in the statements -/

/-- The six actions of the response. -/
def IsAction (act : String) : Prop :=
  act = "HIT" ∨ act = "STAND" ∨ act = "DOUBLE" ∨ act = "SPLIT" ∨ act = "SURRENDER" ∨
    act = "BLACKJACK"

/-- A card symbol is valid when `cardValue` returns no error for it. -/
def validCard (card : String) : Bool :=
  match cardValue card with
  | .ok _ => true
  | .error _ => false

/-- The fact that `createFact` builds once the dealer card has value
`dealerCard` (the struct literal of lines 545–553). -/
def factOf (player : List String) (dealerCard : Int) (rules : GameRules) : BlackjackFact :=
  { PlayerTotal := (calculateTotal player).1
    SoftTotal := (calculateTotal player).2
    DealerCard := dealerCard
    CanSplit := canSplit player
    DASAllowed := rules.DASAllowed
    SurrenderAllowed := rules.SurrenderAllowed
    Decks := rules.Decks
    RecommendedAct := ""
    Insurance := false }

/-- Two facts agree on the fields that `executeRules` reads to choose the
action. -/
def Agree (f g : BlackjackFact) : Prop :=
  f.PlayerTotal = g.PlayerTotal ∧ f.SoftTotal = g.SoftTotal ∧ f.DealerCard = g.DealerCard ∧
    f.CanSplit = g.CanSplit ∧ f.SurrenderAllowed = g.SurrenderAllowed

/-- The canonical fact carrying the five fields that decide the action. -/
def coreFact (pt : Int) (soft : Bool) (dc : Int) (cs sa : Bool) : BlackjackFact :=
  { PlayerTotal := pt, SoftTotal := soft, DealerCard := dc, CanSplit := cs,
    DASAllowed := false, SurrenderAllowed := sa, Decks := 0, RecommendedAct := "",
    Insurance := false }

/-- Specification side of the soft/hard classification: the hand holds an Ace
(a card of value 11). -/
def hasAce (cards : List String) : Bool :=
  cards.any (fun card => decide (cardValueIgnoreErr card = 11))

/-- Specification side of the soft/hard classification: the sum of the hand
with every Ace counted as 1. -/
def aceLowSum (cards : List String) : Int :=
  (cards.map (fun card => if cardValueIgnoreErr card = 11 then 1 else cardValueIgnoreErr card)).sum

/-- Specification side of the soft/hard classification: a hand is soft when it
holds an Ace and counting one Ace as 11 does not exceed 21. -/
def specSoft (cards : List String) : Bool :=
  hasAce cards && decide (aceLowSum cards + 10 ≤ 21)

/-- The action assigned by the pair block of `executeRules` (lines 448–473),
as a function of the fields it reads; `none` when the block does not return. -/
def pairAction (pt : Int) (soft : Bool) (dc : Int) (cs : Bool) : Option String :=
  if cs then
    if pt = 12 ∧ dc ≥ 2 ∧ dc ≤ 6 then some "SPLIT"
    else if pt = 14 ∧ dc ≥ 2 ∧ dc ≤ 7 then some "SPLIT"
    else if pt = 16 then some "SPLIT"
    else if pt = 18 ∧ dc ≤ 9 then some "SPLIT"
    else if pt = 20 then some "STAND"
    else if pt = 22 ∨ (pt = 12 ∧ soft = true) then some "SPLIT"
    else none
  else none

/-- The action assigned by the surrender block of `executeRules` (lines
475–486); `none` when the block does not return. -/
def surrenderAction (pt : Int) (soft : Bool) (dc : Int) (sa : Bool) : Option String :=
  if sa then
    if soft = false then
      if pt = 16 ∧ dc ≥ 9 then some "SURRENDER"
      else if pt = 15 ∧ dc = 10 then some "SURRENDER"
      else none
    else none
  else none

/-- The action assigned by the soft block of `executeRules` (lines 489–503). -/
def softAction (pt dc : Int) : String :=
  if pt ≥ 19 then "STAND"
  else if pt = 18 then
    if dc ≥ 9 then "HIT"
    else if dc ≥ 3 ∧ dc ≤ 6 then "DOUBLE"
    else "STAND"
  else if pt = 17 ∧ dc ≥ 3 ∧ dc ≤ 6 then "DOUBLE"
  else "HIT"

/-- The action assigned by the hard chain of `executeRules` (lines 507–531);
`none` when no alternative of the chain is taken. -/
def hardAction (pt dc : Int) : Option String :=
  if pt ≥ 17 then some "STAND"
  else if pt ≤ 8 then some "HIT"
  else if pt = 11 then some "DOUBLE"
  else if pt = 10 then
    if dc ≤ 9 then some "DOUBLE" else some "HIT"
  else if pt = 9 then
    if dc ≥ 3 ∧ dc ≤ 6 then some "DOUBLE" else some "HIT"
  else if pt ≥ 12 ∧ pt ≤ 16 then
    if dc ≥ 7 then some "HIT" else some "STAND"
  else none

/-- The action chosen by `executeRules`, as a function of the five fields it
reads: the blocks above in the order of the source. -/
def actionOf (pt : Int) (soft : Bool) (dc : Int) (cs sa : Bool) : Option String :=
  if pt = 21 then some "BLACKJACK"
  else
    match pairAction pt soft dc cs with
    | some a => some a
    | none =>
      match surrenderAction pt soft dc sa with
      | some a => some a
      | none => if soft = true then some (softAction pt dc) else hardAction pt dc

/-- Specification side of the total tables, soft hands: total at least 19
stands; 18 hits against 9 or more, doubles against 3 to 6, else stands; 17
doubles against 3 to 6, else hits; 16 or less hits. -/
def specSoftTable (pt dc : Int) : Option String :=
  if pt ≥ 19 then some "STAND"
  else if pt = 18 then
    if dc ≥ 9 then some "HIT" else if 3 ≤ dc ∧ dc ≤ 6 then some "DOUBLE" else some "STAND"
  else if pt = 17 then
    if 3 ≤ dc ∧ dc ≤ 6 then some "DOUBLE" else some "HIT"
  else if pt ≤ 16 then some "HIT"
  else none

/-- Specification side of the total tables, hard hands: total at least 17
stands; 8 or less hits; 11 doubles; 10 doubles against 9 or less, else hits;
9 doubles against 3 to 6, else hits; 12 to 16 stands against 6 or less, else
hits. -/
def specHardTable (pt dc : Int) : Option String :=
  if pt ≥ 17 then some "STAND"
  else if pt ≤ 8 then some "HIT"
  else if pt = 11 then some "DOUBLE"
  else if pt = 10 then
    if dc ≤ 9 then some "DOUBLE" else some "HIT"
  else if pt = 9 then
    if 3 ≤ dc ∧ dc ≤ 6 then some "DOUBLE" else some "HIT"
  else if 12 ≤ pt ∧ pt ≤ 16 then
    if dc ≤ 6 then some "STAND" else some "HIT"
  else none

/-- Specification side of the total tables: the soft table for a soft hand,
the hard table otherwise. -/
def specTable (soft : Bool) (pt dc : Int) : Option String :=
  if soft then specSoftTable pt dc else specHardTable pt dc

/-- Specification side of the hand total: every value obtainable by counting
each Ace as 1 or as 11 and every other card at its value. -/
def valuations : List String → List Int
  | [] => [0]
  | card :: rest =>
    if cardValueIgnoreErr card = 11 then
      (valuations rest).map (fun x => x + 1) ++ (valuations rest).map (fun x => x + 11)
    else (valuations rest).map (fun x => x + cardValueIgnoreErr card)

/-- Number of Aces of a hand, the final value of `aces` in the first loop of
`calculateTotal`. -/
def aceCount (cards : List String) : Nat :=
  cards.countP (fun c => decide (cardValueIgnoreErr c = 11))

/-- Specification side of the accepted symbols: the thirteen rank symbols,
letters in either case. -/
def cardSymbols : List String :=
  ["2", "3", "4", "5", "6", "7", "8", "9", "10", "J", "Q", "K", "A", "j", "q", "k", "a"]

/-! ## Lemmas on `cardValue` and `createFact` -/

theorem cardValue_range (card : String) (v : Int) (h : cardValue card = .ok v) :
    2 ≤ v ∧ v ≤ 11 := by
  unfold cardValue at h
  split_ifs at h
  · cases h; omega
  · cases h; omega
  · split at h
    · split_ifs at h with hr
      cases h; omega
    · cases h

theorem createFact_of_dealer (player rest : List String) (d : String) (v : Int)
    (rules : GameRules) (hd : cardValue d = .ok v) :
    createFact ⟨player, d :: rest, rules⟩ = .ok (factOf player v rules) := by
  simp [createFact, hd, factOf]

theorem advice_of_dealer (player rest : List String) (d : String) (v : Int)
    (rules : GameRules) (hd : cardValue d = .ok v) :
    advice ⟨player, d :: rest, rules⟩
      = .ok (executeRules (factOf player v rules)).RecommendedAct := by
  simp [advice, createFact_of_dealer player rest d v rules hd]

/-! ## Every block of `executeRules` assigns one of the six actions -/

theorem pairRules_isAction (fact done : BlackjackFact) (h : pairRules fact = some done) :
    IsAction done.RecommendedAct := by
  unfold pairRules at h
  split_ifs at h <;> cases h <;> simp [IsAction]

theorem surrenderRules_isAction (fact done : BlackjackFact)
    (h : surrenderRules fact = some done) : IsAction done.RecommendedAct := by
  unfold surrenderRules at h
  split_ifs at h <;> cases h <;> simp [IsAction]

theorem softRules_isAction (fact : BlackjackFact) :
    IsAction (softRules fact).RecommendedAct := by
  unfold softRules
  split_ifs <;> simp [IsAction]

theorem hardRules_isAction (fact : BlackjackFact) :
    IsAction (hardRules fact).RecommendedAct := by
  unfold hardRules
  split_ifs <;> first
    | (simp [IsAction]; done)
    | (exfalso; omega)

theorem defaultRule_isAction (fact : BlackjackFact) (h : IsAction fact.RecommendedAct) :
    IsAction (defaultRule fact).RecommendedAct := by
  unfold defaultRule
  split_ifs
  · simp [IsAction]
  · exact h

theorem decisionRules_isAction (fact : BlackjackFact) :
    IsAction (decisionRules fact).RecommendedAct := by
  unfold decisionRules
  split
  · next done hp => exact pairRules_isAction _ done hp
  · split
    · next done hs => exact surrenderRules_isAction _ done hs
    · split_ifs
      · exact softRules_isAction _
      · exact defaultRule_isAction _ (hardRules_isAction _)

/-! ## The action depends on five fields only -/

theorem insuranceRule_agree (f : BlackjackFact) : Agree (insuranceRule f) f := by
  unfold insuranceRule Agree
  split_ifs <;> simp

theorem agree_trans {f g h : BlackjackFact} (h1 : Agree f g) (h2 : Agree g h) : Agree f h := by
  unfold Agree at *
  obtain ⟨a1, a2, a3, a4, a5⟩ := h1
  obtain ⟨b1, b2, b3, b4, b5⟩ := h2
  exact ⟨a1.trans b1, a2.trans b2, a3.trans b3, a4.trans b4, a5.trans b5⟩

theorem agree_symm {f g : BlackjackFact} (h : Agree f g) : Agree g f := by
  unfold Agree at *
  obtain ⟨a1, a2, a3, a4, a5⟩ := h
  exact ⟨a1.symm, a2.symm, a3.symm, a4.symm, a5.symm⟩

theorem pairRules_agree (f g : BlackjackFact) (h : Agree f g) :
    (pairRules f).map (fun x => x.RecommendedAct)
      = (pairRules g).map (fun x => x.RecommendedAct) := by
  obtain ⟨h1, h2, h3, h4, h5⟩ := h
  unfold pairRules
  rw [h1, h2, h3, h4]
  split_ifs <;> rfl

theorem surrenderRules_agree (f g : BlackjackFact) (h : Agree f g) :
    (surrenderRules f).map (fun x => x.RecommendedAct)
      = (surrenderRules g).map (fun x => x.RecommendedAct) := by
  obtain ⟨h1, h2, h3, h4, h5⟩ := h
  unfold surrenderRules
  rw [h1, h2, h3, h5]
  split_ifs <;> rfl

theorem softRules_agree (f g : BlackjackFact) (h : Agree f g) :
    (softRules f).RecommendedAct = (softRules g).RecommendedAct := by
  obtain ⟨h1, h2, h3, h4, h5⟩ := h
  unfold softRules
  rw [h1, h3]
  split_ifs <;> rfl

theorem hardRules_agree (f g : BlackjackFact) (h : Agree f g) :
    (defaultRule (hardRules f)).RecommendedAct = (defaultRule (hardRules g)).RecommendedAct := by
  obtain ⟨h1, h2, h3, h4, h5⟩ := h
  unfold hardRules
  rw [h1, h3]
  split_ifs <;> first
    | rfl
    | (exfalso; omega)

theorem decisionRules_agree (f g : BlackjackFact) (h : Agree f g) :
    (decisionRules f).RecommendedAct = (decisionRules g).RecommendedAct := by
  have hp := pairRules_agree f g h
  have hs := surrenderRules_agree f g h
  unfold decisionRules
  cases hpf : pairRules f <;> cases hpg : pairRules g <;> rw [hpf, hpg] at hp <;>
    simp at hp
  · cases hsf : surrenderRules f <;> cases hsg : surrenderRules g <;> rw [hsf, hsg] at hs <;>
      simp at hs
    · simp only
      rw [h.2.1]
      split_ifs
      · exact softRules_agree f g h
      · exact hardRules_agree f g h
    · exact hs
  · exact hp

theorem executeRules_agree (f g : BlackjackFact) (h : Agree f g) :
    (executeRules f).RecommendedAct = (executeRules g).RecommendedAct := by
  unfold executeRules
  rw [h.1]
  split_ifs
  · rfl
  · exact decisionRules_agree _ _
      (agree_trans (agree_trans (insuranceRule_agree f) h) (agree_symm (insuranceRule_agree g)))

theorem executeRules_factOf (player : List String) (v : Int) (rules : GameRules)
    (pt : Int) (soft cs : Bool) (ht : calculateTotal player = (pt, soft))
    (hc : canSplit player = cs) :
    (executeRules (factOf player v rules)).RecommendedAct
      = (executeRules (coreFact pt soft v cs rules.SurrenderAllowed)).RecommendedAct := by
  apply executeRules_agree
  simp [Agree, factOf, coreFact, ht, hc]

/-- The action for a hand whose evaluation is known, against a valid dealer
card. -/
theorem advice_eval (player rest : List String) (d : String) (v : Int) (rules : GameRules)
    (pt : Int) (soft cs : Bool) (hd : cardValue d = .ok v)
    (ht : calculateTotal player = (pt, soft)) (hc : canSplit player = cs) :
    advice ⟨player, d :: rest, rules⟩
      = .ok (executeRules (coreFact pt soft v cs rules.SurrenderAllowed)).RecommendedAct := by
  rw [advice_of_dealer _ _ _ _ _ hd, executeRules_factOf _ v rules pt soft cs ht hc]

/-! ## Totality of the resolver -/

/-- C1: for every fact (any integers, any flags, any initial `RecommendedAct`),
`executeRules` ends with `RecommendedAct` equal to one of the six actions. -/
theorem executeRules_total (fact : BlackjackFact) :
    (executeRules fact).RecommendedAct = "HIT" ∨
    (executeRules fact).RecommendedAct = "STAND" ∨
    (executeRules fact).RecommendedAct = "DOUBLE" ∨
    (executeRules fact).RecommendedAct = "SPLIT" ∨
    (executeRules fact).RecommendedAct = "SURRENDER" ∨
    (executeRules fact).RecommendedAct = "BLACKJACK" := by
  show IsAction (executeRules fact).RecommendedAct
  unfold executeRules
  split_ifs with h21
  · simp [IsAction]
  · exact decisionRules_isAction _

/-! ## Hands of 21 -/

/-- C2: a two-card hand of an Ace and a ten-valued card (`10`, `J`, `Q`, `K`,
either letter case, either order) gets `BLACKJACK` against every valid dealer
up-card and under every setting of the game rules. -/
theorem natural_blackjack (a t d : String) (rest : List String) (v : Int) (rules : GameRules)
    (ha : a ∈ ["A", "a"]) (ht : t ∈ ["10", "J", "Q", "K", "j", "q", "k"])
    (hd : cardValue d = .ok v) :
    advice ⟨[a, t], d :: rest, rules⟩ = .ok "BLACKJACK" ∧
    advice ⟨[t, a], d :: rest, rules⟩ = .ok "BLACKJACK" := by
  have hA : cardValueIgnoreErr a = 11 := by
    revert a; decide
  have hT : cardValueIgnoreErr t = 10 := by
    revert t; decide
  have h1 : calculateTotal [a, t] = (21, false) := by
    simp [calculateTotal, sumCards, hA, hT, reduceAces]
  have h2 : calculateTotal [t, a] = (21, false) := by
    simp [calculateTotal, sumCards, hA, hT, reduceAces]
  constructor
  · rw [advice_of_dealer _ _ _ _ _ hd]
    simp [executeRules, factOf, h1]
  · rw [advice_of_dealer _ _ _ _ _ hd]
    simp [executeRules, factOf, h2]

/-- Witness of C2: player `["A","K"]` against dealer `["6"]`. -/
theorem natural_blackjack_witness :
    ("A" ∈ ["A", "a"] ∧ "K" ∈ ["10", "J", "Q", "K", "j", "q", "k"] ∧
      cardValue "6" = .ok 6) ∧
    (advice ⟨["A", "K"], ["6"], ⟨false, false, 1⟩⟩ = .ok "BLACKJACK" ∧
      advice ⟨["K", "A"], ["6"], ⟨false, false, 1⟩⟩ = .ok "BLACKJACK") :=
  ⟨⟨by decide, by decide, by decide⟩,
    natural_blackjack "A" "K" "6" [] 6 ⟨false, false, 1⟩ (by decide) (by decide) (by decide)⟩

/-- C3, counterexample: `["7","7","7"]` is a hand of three valid cards with
total 21 and `6` is a valid dealer card, yet the action is `BLACKJACK`, not
`STAND`. -/
theorem three_sevens_not_stand :
    (3 ≤ ["7", "7", "7"].length ∧ (∀ c ∈ ["7", "7", "7"], validCard c = true) ∧
      (calculateTotal ["7", "7", "7"]).1 = 21 ∧ cardValue "6" = .ok 6) ∧
    advice ⟨["7", "7", "7"], ["6"], ⟨false, false, 1⟩⟩ = .ok "BLACKJACK" ∧
    advice ⟨["7", "7", "7"], ["6"], ⟨false, false, 1⟩⟩ ≠ .ok "STAND" := by
  decide

/-- C3, amended: a hand of three or more valid cards whose total is 21 gets
`BLACKJACK` against every valid dealer up-card and under every setting of the
game rules; `executeRules` tests the total alone. -/
theorem three_card_21_blackjack (p rest : List String) (d : String) (v : Int)
    (rules : GameRules) (_hlen : 3 ≤ p.length) (_hvalid : ∀ c ∈ p, validCard c = true)
    (h21 : (calculateTotal p).1 = 21) (hd : cardValue d = .ok v) :
    advice ⟨p, d :: rest, rules⟩ = .ok "BLACKJACK" := by
  rw [advice_of_dealer _ _ _ _ _ hd]
  simp [executeRules, factOf, h21]

/-- Witness of the amended C3: player `["7","7","7"]` against dealer `["6"]`. -/
theorem three_card_21_blackjack_witness :
    (3 ≤ ["7", "7", "7"].length ∧ (∀ c ∈ ["7", "7", "7"], validCard c = true) ∧
      (calculateTotal ["7", "7", "7"]).1 = 21 ∧ cardValue "6" = .ok 6) ∧
    advice ⟨["7", "7", "7"], ["6"], ⟨false, false, 1⟩⟩ = .ok "BLACKJACK" :=
  ⟨⟨by decide, by decide, by decide, by decide⟩,
    three_card_21_blackjack ["7", "7", "7"] [] "6" 6 ⟨false, false, 1⟩
      (by decide) (by decide) (by decide) (by decide)⟩

/-! ## Soft hands -/

/-- C4, the code at the failing input: `calculateTotal` reports `["A","7"]` as
a hard 18, so under every setting of the game rules the action is `STAND`
against a dealer 9 (the claim says `HIT`) and against a dealer 4 (the claim
says `DOUBLE`). -/
theorem ace_seven_always_stand (rules : GameRules) :
    calculateTotal ["A", "7"] = (18, false) ∧
    advice ⟨["A", "7"], ["9"], rules⟩ = .ok "STAND" ∧
    advice ⟨["A", "7"], ["4"], rules⟩ = .ok "STAND" := by
  refine ⟨by decide, ?_, ?_⟩
  · rw [advice_eval _ _ _ 9 rules 18 false false (by decide) (by decide) (by decide)]
    cases rules.SurrenderAllowed <;> decide
  · rw [advice_eval _ _ _ 4 rules 18 false false (by decide) (by decide) (by decide)]
    cases rules.SurrenderAllowed <;> decide

/-- C5, the code at the failing input: `["A","7"]` holds an Ace and its sum
with the Ace counted as 1 is 8, so 8 + 10 is at most 21 and the hand is soft by
the stated criterion, yet the boolean returned by `calculateTotal` is
`false`. -/
theorem ace_seven_reported_hard :
    hasAce ["A", "7"] = true ∧ aceLowSum ["A", "7"] = 8 ∧ specSoft ["A", "7"] = true ∧
    (calculateTotal ["A", "7"]).1 = 18 ∧ (calculateTotal ["A", "7"]).2 = false := by
  decide

/-! ## Invalid cards -/

/-- C6, the code at the failing input: `X` is not a valid card, yet
`createFact` returns a fact (and no error) for the player hand `["X","5"]`,
counting `X` as 0, and the request gets the action `HIT`. -/
theorem createFact_accepts_invalid_player_card :
    cardValue "X" = .error "invalid card value: X" ∧
    createFact ⟨["X", "5"], ["6"], ⟨false, false, 1⟩⟩
      = .ok { PlayerTotal := 5, SoftTotal := false, DealerCard := 6, CanSplit := false,
              DASAllowed := false, SurrenderAllowed := false, Decks := 1,
              RecommendedAct := "", Insurance := false } ∧
    advice ⟨["X", "5"], ["6"], ⟨false, false, 1⟩⟩ = .ok "HIT" := by
  decide

/-! ## Pairs -/

/-- C7: the pairs `["A","A"]` and `["8","8"]` get `SPLIT` against every valid
dealer up-card and under every setting of the game rules. -/
theorem aces_and_eights_split (p rest : List String) (d : String) (v : Int)
    (rules : GameRules) (hp : p = ["A", "A"] ∨ p = ["8", "8"]) (hd : cardValue d = .ok v) :
    advice ⟨p, d :: rest, rules⟩ = .ok "SPLIT" := by
  obtain ⟨hv1, hv2⟩ := cardValue_range d v hd
  rcases hp with rfl | rfl
  · rw [advice_eval _ _ _ v rules 12 true true hd (by decide) (by decide)]
    interval_cases v <;> cases rules.SurrenderAllowed <;> decide
  · rw [advice_eval _ _ _ v rules 16 false true hd (by decide) (by decide)]
    interval_cases v <;> cases rules.SurrenderAllowed <;> decide

/-- Witness of C7: player `["8","8"]` against dealer `["10"]` with surrender
allowed. -/
theorem aces_and_eights_split_witness :
    ((["8", "8"] = ["A", "A"] ∨ ["8", "8"] = ["8", "8"]) ∧ cardValue "10" = .ok 10) ∧
    advice ⟨["8", "8"], ["10"], ⟨false, true, 6⟩⟩ = .ok "SPLIT" :=
  ⟨⟨by decide, by decide⟩,
    aces_and_eights_split ["8", "8"] [] "10" 10 ⟨false, true, 6⟩ (by decide) (by decide)⟩

/-- C8, the code at the failing input: under every setting of the game rules
the pairs `["2","2"]` and `["3","3"]` against a dealer 5 get `HIT`, not
`SPLIT`; the procedural pair block has no case for the totals 4 and 6. -/
theorem twos_threes_vs_five_hit (rules : GameRules) :
    advice ⟨["2", "2"], ["5"], rules⟩ = .ok "HIT" ∧
    advice ⟨["3", "3"], ["5"], rules⟩ = .ok "HIT" := by
  constructor
  · rw [advice_eval _ _ _ 5 rules 4 false true (by decide) (by decide) (by decide)]
    cases rules.SurrenderAllowed <;> decide
  · rw [advice_eval _ _ _ 5 rules 6 false true (by decide) (by decide) (by decide)]
    cases rules.SurrenderAllowed <;> decide

/-- C9, the code at the failing input: under every setting of the game rules
the pair `["4","4"]` against a dealer 5 or 6 gets `HIT`, not `SPLIT`; the
procedural pair block has no case for the total 8. -/
theorem fours_vs_five_six_hit (rules : GameRules) :
    advice ⟨["4", "4"], ["5"], rules⟩ = .ok "HIT" ∧
    advice ⟨["4", "4"], ["6"], rules⟩ = .ok "HIT" := by
  constructor
  · rw [advice_eval _ _ _ 5 rules 8 false true (by decide) (by decide) (by decide)]
    cases rules.SurrenderAllowed <;> decide
  · rw [advice_eval _ _ _ 6 rules 8 false true (by decide) (by decide) (by decide)]
    cases rules.SurrenderAllowed <;> decide

/-- C10: against every valid dealer up-card of value `v` and under every
setting of the game rules, `["6","6"]` gets `SPLIT` exactly when `v` is 2 to 6,
and `["9","9"]` gets `SPLIT` exactly when `v` is 2 to 9. -/
theorem sixes_nines_split_iff (rest : List String) (d : String) (v : Int)
    (rules : GameRules) (hd : cardValue d = .ok v) :
    (advice ⟨["6", "6"], d :: rest, rules⟩ = .ok "SPLIT" ↔ 2 ≤ v ∧ v ≤ 6) ∧
    (advice ⟨["9", "9"], d :: rest, rules⟩ = .ok "SPLIT" ↔ 2 ≤ v ∧ v ≤ 9) := by
  obtain ⟨hv1, hv2⟩ := cardValue_range d v hd
  constructor
  · rw [advice_eval _ _ _ v rules 12 false true hd (by decide) (by decide)]
    interval_cases v <;> cases rules.SurrenderAllowed <;> decide
  · rw [advice_eval _ _ _ v rules 18 false true hd (by decide) (by decide)]
    interval_cases v <;> cases rules.SurrenderAllowed <;> decide

/-- Witness of C10: dealer `["7"]`, where `["6","6"]` is not split and
`["9","9"]` is. -/
theorem sixes_nines_split_iff_witness :
    cardValue "7" = .ok 7 ∧
    (advice ⟨["6", "6"], ["7"], ⟨true, false, 2⟩⟩ = .ok "SPLIT" ↔ (2 : Int) ≤ 7 ∧ (7 : Int) ≤ 6) ∧
    (advice ⟨["9", "9"], ["7"], ⟨true, false, 2⟩⟩ = .ok "SPLIT" ↔ (2 : Int) ≤ 7 ∧ (7 : Int) ≤ 9) :=
  ⟨by decide, sixes_nines_split_iff [] "7" 7 ⟨true, false, 2⟩ (by decide)⟩

/-! ## The action as a function of the fields read -/

theorem pairRules_action (f : BlackjackFact) :
    (pairRules f).map (fun x => x.RecommendedAct)
      = pairAction f.PlayerTotal f.SoftTotal f.DealerCard f.CanSplit := by
  unfold pairRules pairAction
  split_ifs <;> rfl

theorem surrenderRules_action (f : BlackjackFact) :
    (surrenderRules f).map (fun x => x.RecommendedAct)
      = surrenderAction f.PlayerTotal f.SoftTotal f.DealerCard f.SurrenderAllowed := by
  unfold surrenderRules surrenderAction
  split_ifs <;> rfl

theorem softRules_action (f : BlackjackFact) :
    (softRules f).RecommendedAct = softAction f.PlayerTotal f.DealerCard := by
  unfold softRules softAction
  split_ifs <;> rfl

theorem hardRules_action (f : BlackjackFact) :
    some (hardRules f).RecommendedAct = hardAction f.PlayerTotal f.DealerCard := by
  unfold hardRules hardAction
  split_ifs <;> first
    | rfl
    | (exfalso; omega)

theorem hardAction_ne_empty (pt dc : Int) : hardAction pt dc ≠ some "" := by
  unfold hardAction
  split_ifs <;> decide

theorem hardRules_ne_empty (f : BlackjackFact) : (hardRules f).RecommendedAct ≠ "" := by
  intro h
  have h1 := hardRules_action f
  rw [h] at h1
  exact hardAction_ne_empty _ _ h1.symm

theorem defaultRule_hardRules (f : BlackjackFact) : defaultRule (hardRules f) = hardRules f := by
  unfold defaultRule
  rw [if_neg (hardRules_ne_empty f)]

theorem decisionRules_action (f : BlackjackFact) :
    some (decisionRules f).RecommendedAct =
      match pairAction f.PlayerTotal f.SoftTotal f.DealerCard f.CanSplit with
      | some a => some a
      | none =>
        match surrenderAction f.PlayerTotal f.SoftTotal f.DealerCard f.SurrenderAllowed with
        | some a => some a
        | none =>
          if f.SoftTotal = true then some (softAction f.PlayerTotal f.DealerCard)
          else hardAction f.PlayerTotal f.DealerCard := by
  rw [← pairRules_action, ← surrenderRules_action, ← softRules_action, ← hardRules_action]
  unfold decisionRules
  cases hp : pairRules f with
  | some d => rfl
  | none =>
    cases hs : surrenderRules f with
    | some d => rfl
    | none =>
      simp only [Option.map]
      split_ifs
      · rfl
      · rw [defaultRule_hardRules]

theorem executeRules_action (f : BlackjackFact) :
    some (executeRules f).RecommendedAct
      = actionOf f.PlayerTotal f.SoftTotal f.DealerCard f.CanSplit f.SurrenderAllowed := by
  unfold executeRules actionOf
  by_cases h21 : f.PlayerTotal = 21
  · rw [if_pos h21, if_pos h21]
  · rw [if_neg h21, if_neg h21, decisionRules_agree _ _ (insuranceRule_agree f)]
    exact decisionRules_action f

theorem executeRules_eq_iff (f : BlackjackFact) (a : String) :
    (executeRules f).RecommendedAct = a ↔
      actionOf f.PlayerTotal f.SoftTotal f.DealerCard f.CanSplit f.SurrenderAllowed = some a := by
  rw [← executeRules_action]
  constructor
  · intro h; rw [h]
  · intro h; exact Option.some.inj h

/-! ## Ten-valued pairs, surrender, insurance and the total tables -/

/-- C11: a two-card hand of two ten-valued cards (any mix of `10`, `J`, `Q`,
`K`, either letter case) gets `STAND` against every valid dealer up-card and
under every setting of the game rules. -/
theorem ten_pairs_stand (t1 t2 d : String) (rest : List String) (v : Int) (rules : GameRules)
    (h1 : t1 ∈ ["10", "J", "Q", "K", "j", "q", "k"])
    (h2 : t2 ∈ ["10", "J", "Q", "K", "j", "q", "k"])
    (hd : cardValue d = .ok v) :
    advice ⟨[t1, t2], d :: rest, rules⟩ = .ok "STAND" := by
  have hT1 : cardValueIgnoreErr t1 = 10 := by
    revert t1; decide
  have hT2 : cardValueIgnoreErr t2 = 10 := by
    revert t2; decide
  have ht : calculateTotal [t1, t2] = (20, false) := by
    simp [calculateTotal, sumCards, hT1, hT2, reduceAces]
  have hc : canSplit [t1, t2] = true := by
    simp [canSplit, hT1, hT2]
  obtain ⟨hv1, hv2⟩ := cardValue_range d v hd
  rw [advice_eval _ _ _ v rules 20 false true hd ht hc]
  interval_cases v <;> cases rules.SurrenderAllowed <;> decide

/-- Witness of C11: player `["K","Q"]` against dealer `["A"]`. -/
theorem ten_pairs_stand_witness :
    ("K" ∈ ["10", "J", "Q", "K", "j", "q", "k"] ∧ "Q" ∈ ["10", "J", "Q", "K", "j", "q", "k"] ∧
      cardValue "A" = .ok 11) ∧
    advice ⟨["K", "Q"], ["A"], ⟨true, true, 8⟩⟩ = .ok "STAND" :=
  ⟨⟨by decide, by decide, by decide⟩,
    ten_pairs_stand "K" "Q" "A" [] 11 ⟨true, true, 8⟩ (by decide) (by decide) (by decide)⟩

theorem pairAction_ne_surrender (pt : Int) (soft : Bool) (dc : Int) (cs : Bool) :
    pairAction pt soft dc cs ≠ some "SURRENDER" := by
  unfold pairAction
  split_ifs <;> decide

theorem softAction_ne_surrender (pt dc : Int) : softAction pt dc ≠ "SURRENDER" := by
  unfold softAction
  split_ifs <;> decide

theorem hardAction_ne_surrender (pt dc : Int) : hardAction pt dc ≠ some "SURRENDER" := by
  unfold hardAction
  split_ifs <;> decide

theorem pairAction_none_of_surrender_totals (pt : Int) (soft : Bool) (dc : Int) (cs : Bool)
    (h : (pt = 16 ∧ cs = false) ∨ pt = 15) : pairAction pt soft dc cs = none := by
  unfold pairAction
  rcases h with ⟨h16, hcs⟩ | h15
  · rw [hcs]; rfl
  · subst h15
    cases cs
    · rfl
    · simp

theorem pairAction_sixteen (pt : Int) (soft : Bool) (dc : Int) (cs : Bool)
    (h16 : pt = 16) (hn : pairAction pt soft dc cs = none) : cs = false := by
  subst h16
  cases cs
  · rfl
  · simp [pairAction] at hn

theorem surrenderAction_eq_some_iff (pt : Int) (soft : Bool) (dc : Int) (sa : Bool) (a : String) :
    surrenderAction pt soft dc sa = some a ↔
      a = "SURRENDER" ∧ sa = true ∧ soft = false ∧
        ((pt = 16 ∧ dc ≥ 9) ∨ (pt = 15 ∧ dc = 10)) := by
  unfold surrenderAction
  cases sa <;> cases soft <;> simp
  split_ifs with h1 h2
  · simp [h1, eq_comm]
  · simp [h2, eq_comm]
  · simp
    intro _
    omega

theorem actionOf_surrender_iff (pt : Int) (soft : Bool) (dc : Int) (cs sa : Bool) :
    actionOf pt soft dc cs sa = some "SURRENDER" ↔
      sa = true ∧ soft = false ∧
        ((pt = 16 ∧ cs = false ∧ dc ≥ 9) ∨ (pt = 15 ∧ dc = 10)) := by
  unfold actionOf
  by_cases h21 : pt = 21
  · rw [if_pos h21]
    constructor
    · intro h; exact absurd h (by decide)
    · rintro ⟨_, _, h | h⟩ <;> omega
  · rw [if_neg h21]
    cases hp : pairAction pt soft dc cs with
    | some a =>
      simp only
      constructor
      · intro h
        rw [Option.some.inj h] at hp
        exact absurd hp (pairAction_ne_surrender _ _ _ _)
      · rintro ⟨_, _, h⟩
        have hnone : pairAction pt soft dc cs = none := by
          apply pairAction_none_of_surrender_totals
          rcases h with ⟨h16, hcs, _⟩ | ⟨h15, _⟩
          · exact Or.inl ⟨h16, hcs⟩
          · exact Or.inr h15
        rw [hnone] at hp
        cases hp
    | none =>
      simp only
      cases hs : surrenderAction pt soft dc sa with
      | some a =>
        simp only
        obtain ⟨ha, hsa, hsoft, hc⟩ := (surrenderAction_eq_some_iff _ _ _ _ _).mp hs
        constructor
        · intro _
          refine ⟨hsa, hsoft, ?_⟩
          rcases hc with ⟨h16, hdc⟩ | h15
          · exact Or.inl ⟨h16, pairAction_sixteen pt soft dc cs h16 hp, hdc⟩
          · exact Or.inr h15
        · intro _
          rw [ha]
      | none =>
        simp only
        constructor
        · intro h
          exfalso
          split_ifs at h
          · exact softAction_ne_surrender _ _ (Option.some.inj h)
          · exact hardAction_ne_surrender _ _ h
        · rintro ⟨hsa, hsoft, hc⟩
          have hsome : surrenderAction pt soft dc sa = some "SURRENDER" := by
            rw [surrenderAction_eq_some_iff]
            refine ⟨rfl, hsa, hsoft, ?_⟩
            rcases hc with ⟨h16, _, hdc⟩ | h15
            · exact Or.inl ⟨h16, hdc⟩
            · exact Or.inr h15
          rw [hsome] at hs
          cases hs

/-- C12: `executeRules` chooses `SURRENDER` exactly when surrender is allowed,
the hand is hard, and either the total is 16, the hand is not a pair and the
dealer card is at least 9, or the total is 15 and the dealer card is 10; a
non-pair hard 16 against a dealer 10 gets `SURRENDER` when surrender is allowed
and `HIT` when it is not. -/
theorem surrender_iff (f : BlackjackFact) :
    ((executeRules f).RecommendedAct = "SURRENDER" ↔
      f.SurrenderAllowed = true ∧ f.SoftTotal = false ∧
        ((f.PlayerTotal = 16 ∧ f.CanSplit = false ∧ f.DealerCard ≥ 9) ∨
          (f.PlayerTotal = 15 ∧ f.DealerCard = 10))) ∧
    (executeRules { f with PlayerTotal := 16, SoftTotal := false, DealerCard := 10,
                           CanSplit := false }).RecommendedAct
      = if f.SurrenderAllowed = true then "SURRENDER" else "HIT" := by
  constructor
  · rw [executeRules_eq_iff]
    exact actionOf_surrender_iff _ _ _ _ _
  · rw [executeRules_eq_iff]
    rcases f with ⟨pt, soft, dc, cs, das, sa, decks, act, ins⟩
    simp only
    cases sa <;> rfl

/-- C14: for a fact with total other than 21, no pair and surrender not
allowed, the action chosen by `executeRules` is the entry of the soft or hard
total table. -/
theorem total_tables (f : BlackjackFact) (h21 : f.PlayerTotal ≠ 21)
    (hcs : f.CanSplit = false) (hsa : f.SurrenderAllowed = false) :
    specTable f.SoftTotal f.PlayerTotal f.DealerCard = some (executeRules f).RecommendedAct := by
  rw [executeRules_action, hcs, hsa]
  rcases f with ⟨pt, soft, dc, cs, das, sa, decks, act, ins⟩
  simp only at h21 ⊢
  unfold actionOf pairAction surrenderAction softAction hardAction specTable specSoftTable
    specHardTable
  cases soft <;> simp [h21] <;> split_ifs <;> first | rfl | (exfalso; omega)

/-- Witness of C14: a soft 18 against a dealer 9. -/
theorem total_tables_witness :
    ((18 : Int) ≠ 21 ∧ false = false ∧ false = false) ∧
    specTable true 18 9
      = some (executeRules ⟨18, true, 9, false, false, false, 1, "", false⟩).RecommendedAct :=
  ⟨⟨by decide, rfl, rfl⟩,
    total_tables ⟨18, true, 9, false, false, false, 1, "", false⟩ (by decide) rfl rfl⟩

/-- C13, the code at the failing input: for player `["A","K"]` against dealer
`["A"]` the fact has total 21 and dealer card 11, and `executeRules` returns
at its first test, before the insurance test, so `Insurance` stays `false`. -/
theorem insurance_not_set_on_21 :
    createFact ⟨["A", "K"], ["A"], ⟨false, false, 1⟩⟩
      = .ok ⟨21, false, 11, false, false, false, 1, "", false⟩ ∧
    (executeRules ⟨21, false, 11, false, false, false, 1, "", false⟩).RecommendedAct
      = "BLACKJACK" ∧
    (executeRules ⟨21, false, 11, false, false, false, 1, "", false⟩).Insurance = false := by
  decide

/-! ## Determinism in the fields read -/

theorem pairRules_preserves (f d : BlackjackFact) (h : pairRules f = some d) : Agree d f := by
  unfold pairRules at h
  split_ifs at h <;> cases h <;> exact ⟨rfl, rfl, rfl, rfl, rfl⟩

theorem surrenderRules_preserves (f d : BlackjackFact) (h : surrenderRules f = some d) :
    Agree d f := by
  unfold surrenderRules at h
  split_ifs at h <;> cases h <;> exact ⟨rfl, rfl, rfl, rfl, rfl⟩

theorem softRules_preserves (f : BlackjackFact) : Agree (softRules f) f := by
  unfold softRules
  split_ifs <;> exact ⟨rfl, rfl, rfl, rfl, rfl⟩

theorem hardRules_preserves (f : BlackjackFact) : Agree (hardRules f) f := by
  unfold hardRules
  split_ifs <;> exact ⟨rfl, rfl, rfl, rfl, rfl⟩

theorem defaultRule_preserves (f : BlackjackFact) : Agree (defaultRule f) f := by
  unfold defaultRule
  split_ifs <;> exact ⟨rfl, rfl, rfl, rfl, rfl⟩

theorem decisionRules_preserves (f : BlackjackFact) : Agree (decisionRules f) f := by
  unfold decisionRules
  split
  · next d hp => exact pairRules_preserves f d hp
  · split
    · next d hs => exact surrenderRules_preserves f d hs
    · split_ifs
      · exact softRules_preserves f
      · exact agree_trans (defaultRule_preserves _) (hardRules_preserves f)

theorem executeRules_preserves (f : BlackjackFact) : Agree (executeRules f) f := by
  unfold executeRules
  split_ifs
  · exact ⟨rfl, rfl, rfl, rfl, rfl⟩
  · exact agree_trans (decisionRules_preserves _) (insuranceRule_agree f)

/-- C18: two facts that agree on `PlayerTotal`, `SoftTotal`, `DealerCard`,
`CanSplit` and `SurrenderAllowed` get the same action, whatever their
`DASAllowed`, `Decks`, `RecommendedAct` and `Insurance`; and running
`executeRules` again on its own result gives the same action. -/
theorem action_depends_on_used_inputs (f g : BlackjackFact)
    (hpt : f.PlayerTotal = g.PlayerTotal) (hsoft : f.SoftTotal = g.SoftTotal)
    (hdc : f.DealerCard = g.DealerCard) (hcs : f.CanSplit = g.CanSplit)
    (hsa : f.SurrenderAllowed = g.SurrenderAllowed) :
    (executeRules f).RecommendedAct = (executeRules g).RecommendedAct ∧
    (executeRules (executeRules f)).RecommendedAct = (executeRules f).RecommendedAct :=
  ⟨executeRules_agree f g ⟨hpt, hsoft, hdc, hcs, hsa⟩,
    executeRules_agree _ _ (executeRules_preserves f)⟩

/-- Witness of C18: two facts for a hard 16 against a dealer 10 that differ in
`DASAllowed`, `Decks`, `RecommendedAct` and `Insurance`. -/
theorem action_depends_on_used_inputs_witness :
    (executeRules ⟨16, false, 10, false, false, true, 1, "", false⟩).RecommendedAct
      = (executeRules ⟨16, false, 10, false, true, true, 8, "STAND", true⟩).RecommendedAct ∧
    (executeRules (executeRules ⟨16, false, 10, false, false, true, 1, "", false⟩)).RecommendedAct
      = (executeRules ⟨16, false, 10, false, false, true, 1, "", false⟩).RecommendedAct :=
  action_depends_on_used_inputs ⟨16, false, 10, false, false, true, 1, "", false⟩
    ⟨16, false, 10, false, true, true, 8, "STAND", true⟩ rfl rfl rfl rfl rfl

/-! ## The closing default -/

/-- C20: the hard-total chain assigns an action for every integer total, so at
the closing test `RecommendedAct` is never empty and the default assignment of
`HIT` changes nothing. -/
theorem default_branch_dead (fact : BlackjackFact) :
    (hardRules fact).RecommendedAct ≠ "" ∧ defaultRule (hardRules fact) = hardRules fact :=
  ⟨hardRules_ne_empty fact, defaultRule_hardRules fact⟩

/-! ## Pair detection and card order -/

theorem cardValueIgnoreErr_of_ok (card : String) (x : Int) (h : cardValue card = .ok x) :
    cardValueIgnoreErr card = x := by
  unfold cardValueIgnoreErr
  rw [h]

theorem cardValue_of_valid (card : String) (h : validCard card = true) :
    cardValue card = .ok (cardValueIgnoreErr card) := by
  unfold validCard at h
  unfold cardValueIgnoreErr
  cases hc : cardValue card with
  | ok x => rfl
  | error e => rw [hc] at h; cases h

/-- C16: for a list of valid card symbols, `canSplit` is true exactly when the
list has two cards of the same raw value (so `["10","K"]` is a pair, as is
`["A","A"]`), and it is false for a list whose length is not two. -/
theorem canSplit_iff (cards : List String) (hvalid : ∀ c ∈ cards, validCard c = true) :
    (canSplit cards = true ↔
      ∃ a b x, cards = [a, b] ∧ cardValue a = .ok x ∧ cardValue b = .ok x) ∧
    (cards.length ≠ 2 → canSplit cards = false) ∧
    canSplit ["10", "K"] = true ∧ canSplit ["A", "A"] = true := by
  refine ⟨?_, ?_, by decide, by decide⟩
  · constructor
    · intro h
      match cards, hvalid, h with
      | [a, b], hv, h =>
        refine ⟨a, b, cardValueIgnoreErr a, rfl, cardValue_of_valid a (hv a (by simp)), ?_⟩
        have hab : cardValueIgnoreErr a = cardValueIgnoreErr b := by
          simpa [canSplit] using h
        rw [hab]
        exact cardValue_of_valid b (hv b (by simp))
    · rintro ⟨a, b, x, rfl, ha, hb⟩
      simp [canSplit, cardValueIgnoreErr_of_ok a x ha, cardValueIgnoreErr_of_ok b x hb]
  · intro hlen
    match cards, hlen with
    | [], _ => rfl
    | [_], _ => rfl
    | [_, _], hlen => exact absurd rfl hlen
    | _ :: _ :: _ :: _, _ => rfl

/-- Witness of C16: the hand `["10","K"]`. -/
theorem canSplit_iff_witness :
    (∀ c ∈ ["10", "K"], validCard c = true) ∧
    ((canSplit ["10", "K"] = true ↔
      ∃ a b x, ["10", "K"] = [a, b] ∧ cardValue a = .ok x ∧ cardValue b = .ok x) ∧
    ((["10", "K"] : List String).length ≠ 2 → canSplit ["10", "K"] = false) ∧
    canSplit ["10", "K"] = true ∧ canSplit ["A", "A"] = true) :=
  ⟨by decide, canSplit_iff ["10", "K"] (by decide)⟩

theorem sumCards_eq (cards : List String) (total : Int) (aces : Nat) :
    sumCards cards total aces
      = (total + (cards.map cardValueIgnoreErr).sum,
         aces + cards.countP (fun c => decide (cardValueIgnoreErr c = 11))) := by
  induction cards generalizing total aces with
  | nil => simp [sumCards]
  | cons c rest ih =>
    rw [sumCards]
    simp only [ih, List.map_cons, List.sum_cons, List.countP_cons]
    by_cases h : cardValueIgnoreErr c = 11
    · simp [h]; constructor <;> omega
    · simp [h]; omega

theorem canSplit_eq_pairwise (cards : List String) :
    canSplit cards = true ↔
      cards.length = 2 ∧ (cards.map cardValueIgnoreErr).Pairwise (fun x y => x = y) := by
  match cards with
  | [] => simp [canSplit]
  | [_] => simp [canSplit]
  | [a, b] => simp [canSplit]
  | _ :: _ :: _ :: _ => simp [canSplit]

/-- C19: a permutation of the cards changes neither the `(total, soft)` pair
returned by `calculateTotal` nor the boolean returned by `canSplit`. -/
theorem evaluation_perm_invariant (cards perm : List String) (h : cards.Perm perm) :
    calculateTotal cards = calculateTotal perm ∧ canSplit cards = canSplit perm := by
  constructor
  · unfold calculateTotal
    rw [sumCards_eq, sumCards_eq, (h.map cardValueIgnoreErr).sum_eq, h.countP_eq]
  · have hiff : canSplit cards = true ↔ canSplit perm = true := by
      rw [canSplit_eq_pairwise, canSplit_eq_pairwise, h.length_eq,
        (h.map cardValueIgnoreErr).pairwise_iff (fun hxy => hxy.symm)]
    cases h1 : canSplit cards <;> cases h2 : canSplit perm <;> simp_all

/-- Witness of C19: `["A","5","A"]` and its permutation `["5","A","A"]`. -/
theorem evaluation_perm_invariant_witness :
    (["A", "5", "A"] : List String).Perm ["5", "A", "A"] ∧
    calculateTotal ["A", "5", "A"] = calculateTotal ["5", "A", "A"] ∧
    canSplit ["A", "5", "A"] = canSplit ["5", "A", "A"] :=
  ⟨List.Perm.swap "5" "A" ["A"],
    evaluation_perm_invariant ["A", "5", "A"] ["5", "A", "A"] (List.Perm.swap "5" "A" ["A"])⟩

/-! ## The hand total -/

theorem mem_valuations (cards : List String) (x : Int) :
    x ∈ valuations cards ↔ ∃ j : Nat, j ≤ aceCount cards ∧ x = aceLowSum cards + 10 * j := by
  induction cards generalizing x with
  | nil => simp [valuations, aceCount, aceLowSum]
  | cons c rest ih =>
    unfold valuations
    by_cases h : cardValueIgnoreErr c = 11
    · simp only [h, if_true, List.mem_append, List.mem_map, ih]
      have hc : aceCount (c :: rest) = aceCount rest + 1 := by simp [aceCount, h]
      have hl : aceLowSum (c :: rest) = 1 + aceLowSum rest := by simp [aceLowSum, h]
      rw [hc, hl]
      constructor
      · rintro (⟨y, ⟨j, hj, rfl⟩, rfl⟩ | ⟨y, ⟨j, hj, rfl⟩, rfl⟩)
        · exact ⟨j, by omega, by omega⟩
        · exact ⟨j + 1, by omega, by push_cast; omega⟩
      · rintro ⟨j, hj, rfl⟩
        by_cases hj2 : j ≤ aceCount rest
        · exact Or.inl ⟨_, ⟨j, hj2, rfl⟩, by omega⟩
        · refine Or.inr ⟨_, ⟨j - 1, by omega, rfl⟩, ?_⟩
          have : ((j - 1 : Nat) : Int) = (j : Int) - 1 := by omega
          rw [this]; omega
    · simp only [h, if_false, List.mem_map, ih]
      have hc : aceCount (c :: rest) = aceCount rest := by simp [aceCount, h]
      have hl : aceLowSum (c :: rest) = cardValueIgnoreErr c + aceLowSum rest := by
        simp [aceLowSum, h]
      rw [hc, hl]
      constructor
      · rintro ⟨y, ⟨j, hj, rfl⟩, rfl⟩
        exact ⟨j, hj, by omega⟩
      · rintro ⟨j, hj, rfl⟩
        exact ⟨_, ⟨j, hj, rfl⟩, by omega⟩

theorem rawSum_eq (cards : List String) :
    (cards.map cardValueIgnoreErr).sum = aceLowSum cards + 10 * (aceCount cards : Int) := by
  induction cards with
  | nil => simp [aceLowSum, aceCount]
  | cons c rest ih =>
    by_cases h : cardValueIgnoreErr c = 11
    · have hc : aceCount (c :: rest) = aceCount rest + 1 := by simp [aceCount, h]
      have hl : aceLowSum (c :: rest) = 1 + aceLowSum rest := by simp [aceLowSum, h]
      rw [hc, hl, List.map_cons, List.sum_cons, ih, h]
      push_cast; omega
    · have hc : aceCount (c :: rest) = aceCount rest := by simp [aceCount, h]
      have hl : aceLowSum (c :: rest) = cardValueIgnoreErr c + aceLowSum rest := by
        simp [aceLowSum, h]
      rw [hc, hl, List.map_cons, List.sum_cons, ih]
      omega

theorem reduceAces_spec (total : Int) (aces : Nat) (soft : Bool) :
    ∃ k : Nat, k ≤ aces ∧ (reduceAces total aces soft).1 = total - 10 * k ∧
      ((reduceAces total aces soft).1 ≤ 21 ∨ k = aces) ∧
      ∀ j : Nat, j < k → 21 < total - 10 * j := by
  induction aces generalizing total soft with
  | zero => exact ⟨0, le_refl _, by simp [reduceAces], Or.inr rfl, by intro j hj; omega⟩
  | succ n ih =>
    unfold reduceAces
    by_cases ht : total > 21
    · rw [if_pos ht]
      obtain ⟨k, hk, heq, hor, hall⟩ := ih (total - 10) (decide (n > 0))
      refine ⟨k + 1, by omega, by rw [heq]; push_cast; omega, ?_, ?_⟩
      · rcases hor with h | h
        · exact Or.inl h
        · exact Or.inr (by omega)
      · intro j hj
        cases j with
        | zero => simpa using ht
        | succ j' =>
          have := hall j' (by omega)
          push_cast; omega
    · rw [if_neg ht]
      exact ⟨0, by omega, by simp, Or.inl (by simpa using ht), by intro j hj; omega⟩

theorem calculateTotal_best_aux (cards : List String) :
    (calculateTotal cards).1 ∈ valuations cards ∧
    ((∃ x ∈ valuations cards, x ≤ 21) →
      (calculateTotal cards).1 ≤ 21 ∧
        ∀ x ∈ valuations cards, x ≤ 21 → x ≤ (calculateTotal cards).1) ∧
    ((∀ x ∈ valuations cards, 21 < x) → (calculateTotal cards).1 = aceLowSum cards) := by
  have hct : calculateTotal cards
      = reduceAces (cards.map cardValueIgnoreErr).sum (aceCount cards) false := by
    unfold calculateTotal
    rw [sumCards_eq]
    simp [aceCount]
  have hraw := rawSum_eq cards
  rw [hct]
  obtain ⟨k, hk, heq, hor, hall⟩ :=
    reduceAces_spec (cards.map cardValueIgnoreErr).sum (aceCount cards) false
  generalize (reduceAces (List.map cardValueIgnoreErr cards).sum (aceCount cards) false).1 = t
    at heq hor ⊢
  rw [hraw] at heq hall
  have hmem : t ∈ valuations cards := by
    rw [mem_valuations]
    exact ⟨aceCount cards - k, by omega, by rw [heq]; omega⟩
  refine ⟨hmem, ?_, ?_⟩
  · rintro ⟨x, hx, hx21⟩
    rw [mem_valuations] at hx
    obtain ⟨j0, hj0, rfl⟩ := hx
    constructor
    · rcases hor with h | h
      · exact h
      · omega
    · intro y hy hy21
      rw [mem_valuations] at hy
      obtain ⟨j, hj, rfl⟩ := hy
      by_contra hgt
      have hlt : aceCount cards - j < k := by omega
      have := hall (aceCount cards - j) hlt
      omega
  · intro hallgt
    have h1 := hallgt t hmem
    rcases hor with h | h
    · omega
    · rw [heq, h]; omega

/-- C15: for a list of valid card symbols the total returned by
`calculateTotal` is one of the values of the hand with each Ace counted as 1
or 11; when some such value is at most 21 it is the largest of them, and when
all of them exceed 21 it is the value with every Ace counted as 1. -/
theorem calculateTotal_best (cards : List String)
    (_hvalid : ∀ c ∈ cards, validCard c = true) :
    (calculateTotal cards).1 ∈ valuations cards ∧
    ((∃ x ∈ valuations cards, x ≤ 21) →
      (calculateTotal cards).1 ≤ 21 ∧
        ∀ x ∈ valuations cards, x ≤ 21 → x ≤ (calculateTotal cards).1) ∧
    ((∀ x ∈ valuations cards, 21 < x) → (calculateTotal cards).1 = aceLowSum cards) :=
  calculateTotal_best_aux cards

/-- Witness of C15: the hand `["A","A","9"]`, whose values are 11, 21 and 31. -/
theorem calculateTotal_best_witness :
    (∀ c ∈ ["A", "A", "9"], validCard c = true) ∧
    ((calculateTotal ["A", "A", "9"]).1 ∈ valuations ["A", "A", "9"] ∧
    ((∃ x ∈ valuations ["A", "A", "9"], x ≤ 21) →
      (calculateTotal ["A", "A", "9"]).1 ≤ 21 ∧
        ∀ x ∈ valuations ["A", "A", "9"], x ≤ 21 → x ≤ (calculateTotal ["A", "A", "9"]).1) ∧
    ((∀ x ∈ valuations ["A", "A", "9"], 21 < x) →
      (calculateTotal ["A", "A", "9"]).1 = aceLowSum ["A", "A", "9"])) :=
  ⟨by decide, calculateTotal_best ["A", "A", "9"] (by decide)⟩

/-! ## Accepted card symbols -/

theorem toUpper_cases (c : Char) :
    (c.toUpper = c) ∨
      ∃ n : Nat, 97 ≤ n ∧ n ≤ 122 ∧ c = Char.ofNat n ∧ c.toUpper = Char.ofNat (n - 32) := by
  unfold Char.toUpper
  by_cases h : c.toNat ≥ 97 ∧ c.toNat ≤ 122
  · right
    refine ⟨c.toNat, h.1, h.2, (Char.ofNat_toNat c).symm, ?_⟩
    simp only [h, and_self, if_true]
  · left
    simp only [h, if_false]

theorem toUpper_eq_A (c : Char) : c.toUpper = 'A' ↔ c = 'A' ∨ c = 'a' := by
  constructor
  · intro h
    rcases toUpper_cases c with h1 | ⟨n, hn1, hn2, rfl, h2⟩
    · left; rw [← h1]; exact h
    · rw [h2] at h
      interval_cases n <;> first | (right; rfl) | exact absurd h (by decide)
  · rintro (rfl | rfl) <;> decide

theorem toUpper_eq_J (c : Char) : c.toUpper = 'J' ↔ c = 'J' ∨ c = 'j' := by
  constructor
  · intro h
    rcases toUpper_cases c with h1 | ⟨n, hn1, hn2, rfl, h2⟩
    · left; rw [← h1]; exact h
    · rw [h2] at h
      interval_cases n <;> first | (right; rfl) | exact absurd h (by decide)
  · rintro (rfl | rfl) <;> decide

theorem toUpper_eq_Q (c : Char) : c.toUpper = 'Q' ↔ c = 'Q' ∨ c = 'q' := by
  constructor
  · intro h
    rcases toUpper_cases c with h1 | ⟨n, hn1, hn2, rfl, h2⟩
    · left; rw [← h1]; exact h
    · rw [h2] at h
      interval_cases n <;> first | (right; rfl) | exact absurd h (by decide)
  · rintro (rfl | rfl) <;> decide

theorem toUpper_eq_K (c : Char) : c.toUpper = 'K' ↔ c = 'K' ∨ c = 'k' := by
  constructor
  · intro h
    rcases toUpper_cases c with h1 | ⟨n, hn1, hn2, rfl, h2⟩
    · left; rw [← h1]; exact h
    · rw [h2] at h
      interval_cases n <;> first | (right; rfl) | exact absurd h (by decide)
  · rintro (rfl | rfl) <;> decide

theorem stringsToUpper_eq_single (s : String) (u l : Char)
    (hu : ∀ c : Char, c.toUpper = u ↔ c = u ∨ c = l) :
    stringsToUpper s = String.mk [u] ↔ s = String.mk [u] ∨ s = String.mk [l] := by
  rcases s with ⟨data⟩
  simp only [stringsToUpper, String.ext_iff]
  match data with
  | [] => simp
  | [c] => simp [hu]
  | _ :: _ :: _ => simp

theorem stringsToUpper_A (s : String) : stringsToUpper s = "A" ↔ s = "A" ∨ s = "a" :=
  stringsToUpper_eq_single s 'A' 'a' toUpper_eq_A

theorem stringsToUpper_J (s : String) : stringsToUpper s = "J" ↔ s = "J" ∨ s = "j" :=
  stringsToUpper_eq_single s 'J' 'j' toUpper_eq_J

theorem stringsToUpper_Q (s : String) : stringsToUpper s = "Q" ↔ s = "Q" ∨ s = "q" :=
  stringsToUpper_eq_single s 'Q' 'q' toUpper_eq_Q

theorem stringsToUpper_K (s : String) : stringsToUpper s = "K" ↔ s = "K" ∨ s = "k" :=
  stringsToUpper_eq_single s 'K' 'k' toUpper_eq_K

theorem letters_not_numerals (s : String)
    (h : s = "A" ∨ s = "a" ∨ s = "J" ∨ s = "j" ∨ s = "Q" ∨ s = "q" ∨ s = "K" ∨ s = "k") :
    strconvAtoi s = none := by
  rcases h with rfl | rfl | rfl | rfl | rfl | rfl | rfl | rfl <;> decide

theorem cardValue_ok_iff_aux (s : String) (v : Int) :
    cardValue s = .ok v ↔
      (s ∈ ["A", "a"] ∧ v = 11) ∨ (s ∈ ["J", "j", "Q", "q", "K", "k"] ∧ v = 10) ∨
        (strconvAtoi s = some v ∧ 2 ≤ v ∧ v ≤ 10) := by
  have hA := stringsToUpper_A s
  have hJ := stringsToUpper_J s
  have hQ := stringsToUpper_Q s
  have hK := stringsToUpper_K s
  simp only [List.mem_cons, List.mem_singleton, List.not_mem_nil, or_false]
  unfold cardValue
  by_cases h1 : stringsToUpper s = "A"
  · rw [if_pos h1]
    have h1s := hA.mp h1
    have hn : strconvAtoi s = none :=
      letters_not_numerals s (h1s.elim Or.inl (fun h => Or.inr (Or.inl h)))
    constructor
    · intro h
      cases h
      exact Or.inl ⟨h1s, rfl⟩
    · rintro (⟨_, rfl⟩ | ⟨h2, _⟩ | ⟨h3, _⟩)
      · rfl
      · exfalso
        rcases h1s with rfl | rfl <;> revert h2 <;> decide
      · rw [hn] at h3; cases h3
  · rw [if_neg h1]
    have h1s : ¬(s = "A" ∨ s = "a") := fun h => h1 (hA.mpr h)
    by_cases h2 : stringsToUpper s = "J" ∨ stringsToUpper s = "Q" ∨ stringsToUpper s = "K"
    · rw [if_pos h2]
      rw [hJ, hQ, hK] at h2
      simp only [or_assoc] at h2
      have hn : strconvAtoi s = none :=
        letters_not_numerals s (Or.inr (Or.inr h2))
      constructor
      · intro h
        cases h
        exact Or.inr (Or.inl ⟨h2, rfl⟩)
      · rintro (⟨h3, _⟩ | ⟨_, rfl⟩ | ⟨h3, _⟩)
        · exact absurd h3 h1s
        · rfl
        · rw [hn] at h3; cases h3
    · rw [if_neg h2]
      rw [hJ, hQ, hK] at h2
      simp only [or_assoc] at h2
      constructor
      · intro h
        split at h
        · next val hval =>
          split_ifs at h with hr
          cases h
          exact Or.inr (Or.inr ⟨hval, hr.1, hr.2⟩)
        · cases h
      · rintro (⟨h3, _⟩ | ⟨h3, _⟩ | ⟨h3, hlo, hhi⟩)
        · exact absurd h3 h1s
        · exact absurd h3 h2
        · rw [h3]
          simp only
          rw [if_pos ⟨hlo, hhi⟩]

theorem cardValue_error_of_not_ok (s : String) (h : ∀ v, cardValue s ≠ .ok v) :
    cardValue s = .error ("invalid card value: " ++ s) := by
  unfold cardValue at h ⊢
  split_ifs at h ⊢ with h1 h2
  · exact absurd rfl (h 11)
  · exact absurd rfl (h 10)
  · split
    · next val hval =>
      split_ifs with hr
      · rw [hval] at h
        simp only [hr, and_self, if_true] at h
        exact absurd rfl (h val)
      · rfl
    · rfl

/-- C17, counterexample: the signed numeral `+5` and the zero-padded numeral
`007` are none of the thirteen symbols, yet `cardValue` accepts them. -/
theorem signed_and_padded_numerals_accepted :
    "+5" ∉ cardSymbols ∧ "007" ∉ cardSymbols ∧
    cardValue "+5" = .ok 5 ∧ cardValue "007" = .ok 7 := by
  decide

/-- C17, amended: `cardValue` succeeds exactly on `A` (11) and `J`, `Q`, `K`
(10) in either letter case and on the strings that `strconv.Atoi` parses as an
integer from 2 to 10, which it returns; every other string gets the error; the
thirteen symbols are accepted with the numeral itself, 10 for `J`, `Q`, `K`
and 11 for `A`. -/
theorem cardValue_accepts (s : String) :
    (∀ v : Int, cardValue s = .ok v ↔
      (s ∈ ["A", "a"] ∧ v = 11) ∨ (s ∈ ["J", "j", "Q", "q", "K", "k"] ∧ v = 10) ∨
        (strconvAtoi s = some v ∧ 2 ≤ v ∧ v ≤ 10)) ∧
    ((∀ v : Int, cardValue s ≠ .ok v) → cardValue s = .error ("invalid card value: " ++ s)) ∧
    cardSymbols.map cardValue
      = [.ok 2, .ok 3, .ok 4, .ok 5, .ok 6, .ok 7, .ok 8, .ok 9, .ok 10, .ok 10, .ok 10, .ok 10,
         .ok 11, .ok 10, .ok 10, .ok 10, .ok 11] :=
  ⟨fun v => cardValue_ok_iff_aux s v, cardValue_error_of_not_ok s, by decide⟩

end Blackjack
